import Mathlib

/-!
Verification development for the StudyBalance scheduling repository.

The definitions below are a shallow embedding of the Python source:

- Times are modelled as minutes (or, for the calendar free-time walker,
  seconds) on a proleptic Gregorian timeline, matching the arithmetic of
  Python datetime objects combined with a fixed date.  A datetime is shown
  with strftime as a zero-padded HH:MM clock string.
- Python floats are modelled with exact rationals.  The multipliers and
  thresholds used by the source (0.9, 0.8, 0.25, 0.6, 0.7, 0.15, 0.4) are
  such that every comparison and truncation performed on the realistic
  integer inputs of this program agrees between binary doubles and exact
  rationals, so the rational model computes the same values.
- Python dicts with optional keys are modelled as structures with Option
  fields, where the dict.get default is applied at each read.
- A raised exception is modelled as an Option/none result on the one code
  path that can raise (strptime on a malformed start time), and as a skip
  of the remaining statements inside the per-event try block of the
  free-time walker.
-/

namespace StudyBalance

/-- Two-digit zero padding, as produced by strftime %H and %M. -/
def pad2 (n : Nat) : String :=
  if n < 10 then "0" ++ toString n else toString n

/-- Clock display of a timestamp given in absolute minutes: strftime %H:%M
of the corresponding datetime. -/
def fmtHM (t : Nat) : String :=
  pad2 (t / 60 % 24) ++ ":" ++ pad2 (t % 60)

/-- Numeric value of an ASCII digit. -/
def digitVal (c : Char) : Option Nat :=
  if c.isDigit then some (c.toNat - 48) else none

/-- Model of datetime.strptime(s, time-of-day format with hour and minute):
one or two hour digits, a colon, one or two minute digits, nothing else,
with hour at most 23 and minute at most 59.  Returns minutes since
midnight; none models the ValueError raised on any other input. -/
def parseHM (s : String) : Option Nat :=
  let mk : Nat → Nat → Option Nat := fun h m =>
    if h ≤ 23 ∧ m ≤ 59 then some (h * 60 + m) else none
  match s.toList with
  | [a, ':', b] =>
    match digitVal a, digitVal b with
    | some h, some m => mk h m
    | _, _ => none
  | [a, ':', b, c] =>
    match digitVal a, digitVal b, digitVal c with
    | some h, some m1, some m2 => mk h (m1 * 10 + m2)
    | _, _, _ => none
  | [a, b, ':', c] =>
    match digitVal a, digitVal b, digitVal c with
    | some h1, some h2, some m => mk (h1 * 10 + h2) m
    | _, _, _ => none
  | [a, b, ':', c, d] =>
    match digitVal a, digitVal b, digitVal c, digitVal d with
    | some h1, some h2, some m1, some m2 => mk (h1 * 10 + h2) (m1 * 10 + m2)
    | _, _, _, _ => none
  | _ => none

/-- The fixed difficulty table of CalendarOptimizer (the same literal table
appears in both of the source methods that use it). -/
def difficulty_map : List (String × Nat) :=
  [("math", 9), ("mathematics", 9), ("calculus", 9), ("algebra", 8),
   ("physics", 8), ("chemistry", 7), ("biology", 6),
   ("computer science", 8), ("programming", 8), ("algorithms", 9),
   ("english", 5), ("literature", 5), ("history", 6),
   ("psychology", 6), ("sociology", 5), ("philosophy", 7)]

/-- ASCII lowering of one character. -/
def charToLower (c : Char) : Char :=
  if 65 ≤ c.toNat ∧ c.toNat ≤ 90 then Char.ofNat (c.toNat + 32) else c

/-- Model of str.lower: on the ASCII table keys and keyword lists of this
program, Python str.lower is exactly per-character ASCII lowering. -/
def strToLower (s : String) : String :=
  ⟨s.toList.map charToLower⟩

/-- CalendarOptimizer._get_subject_difficulty: case-insensitive table lookup
with default 5. -/
def get_subject_difficulty (subject : String) : Nat :=
  (difficulty_map.lookup (strToLower subject)).getD 5

/-- Stable insertion sort: sort (x :: xs) inserts x into the sorted tail,
skipping elements that the keep test orders strictly before x.  With the
keep tests used below this computes the same function as Python sorted,
which is a stable sort. -/
def insertKeep (keep : α → α → Bool) (x : α) : List α → List α
  | [] => [x]
  | y :: ys => if keep y x then y :: insertKeep keep x ys else x :: y :: ys

/-- Stable sort by repeated insertion; see insertKeep. -/
def stableSortBy (keep : α → α → Bool) : List α → List α
  | [] => []
  | x :: xs => insertKeep keep x (stableSortBy keep xs)

/-- Keep test for a stable sort that is descending in the second component:
y stays before a later x exactly when the key of y is strictly larger. -/
def keepDesc (y x : String × Nat) : Bool :=
  decide (x.2 < y.2)

/-- CalendarOptimizer._order_subjects_by_difficulty: pair every subject with
its difficulty, stable-sort descending by difficulty, return the names. -/
def order_subjects_by_difficulty (subjects : List String) : List String :=
  let subjects_with_difficulty :=
    subjects.map (fun subject => (subject, get_subject_difficulty subject))
  (stableSortBy keepDesc subjects_with_difficulty).map Prod.fst

/-- The time-of-day productivity band of CalendarOptimizer
._adjust_duration_for_time_and_subject, lines 186-191 of the source: the
first condition (hours 9-11 and 15-17) is evaluated before the second
(hours 11-15 and 17-20), so an hour satisfying both gets the first band. -/
def duration_multiplier (hour : Nat) : ℚ :=
  if (9 ≤ hour ∧ hour ≤ 11) ∨ (15 ≤ hour ∧ hour ≤ 17) then 1.0
  else if (11 ≤ hour ∧ hour ≤ 15) ∨ (17 ≤ hour ∧ hour ≤ 20) then 0.9
  else 0.8

/-- The same band table in exact thousandths, used by the executable
duration computation below. -/
def duration_multiplier_thousandths (hour : Nat) : Nat :=
  if (9 ≤ hour ∧ hour ≤ 11) ∨ (15 ≤ hour ∧ hour ≤ 17) then 1000
  else if (11 ≤ hour ∧ hour ≤ 15) ∨ (17 ≤ hour ∧ hour ≤ 20) then 900
  else 800

/-- CalendarOptimizer._adjust_duration_for_time_and_subject.  The input
time is absolute minutes; hour is the clock hour of the datetime.  The int
cast of the source truncates the float product toward zero; on these
nonnegative values that is the floor, computed here in exact thousandths
(the difficulty penalty 0.9 on a band value is again exact).  The theorem
adjust_duration_models_floor below proves this equal to the floor of the
rational product with the band multiplier and penalty. -/
def adjust_duration_for_time_and_subject (t : Nat) (subject : String)
    (base_duration : Nat) : Nat :=
  let hour := t / 60 % 24
  let multiplier := duration_multiplier_thousandths hour
  let difficulty := get_subject_difficulty subject
  let multiplier :=
    if 8 ≤ difficulty ∧ ¬ hour < 12 then multiplier * 9 / 10 else multiplier
  base_duration * multiplier / 1000

/-- CalendarOptimizer._is_optimal_time_for_subject. -/
def is_optimal_time_for_subject (t : Nat) (subject : String) : Bool :=
  let hour := t / 60 % 24
  let difficulty := get_subject_difficulty subject
  if 7 ≤ difficulty then
    (decide (9 ≤ hour) && decide (hour ≤ 12)) ||
      (decide (15 ≤ hour) && decide (hour ≤ 17))
  else
    decide (9 ≤ hour) && decide (hour ≤ 20)

/-- CalendarOptimizer._adjust_break_duration. -/
def adjust_break_duration (base_break study_duration : Nat) : Nat :=
  if 90 ≤ study_duration then min (base_break + 5) 20 else base_break

/-- CalendarOptimizer._suggest_break_activity. -/
def suggest_break_activity (break_duration : Nat) : String :=
  if break_duration ≤ 10 then "Deep breathing or stretching"
  else if break_duration ≤ 20 then "Short walk or hydration"
  else "Physical exercise or snack"

/-- One entry of the study_blocks list: the block dict emitted by
CalendarOptimizer._generate_optimized_blocks.  The keys difficulty and
optimal_time are present only on study blocks and activity only on break
blocks, modelled with Option fields. -/
structure Block where
  subject : String
  start_time : String
  end_time : String
  type : String
  duration : Nat
  difficulty : Option Nat := none
  optimal_time : Option Bool := none
  activity : Option String := none
deriving Repr, DecidableEq

/-- The dict returned by CalendarOptimizer._generate_optimized_blocks. -/
structure Schedule where
  study_blocks : List Block
  total_study_time : Nat
  total_break_time : Nat
  wellness_score : ℚ
  efficiency_score : ℚ
  schedule_rating : String
  optimization_notes : List String
deriving Repr, DecidableEq

/-- The preference dict consumed by the scheduler; each key may be absent. -/
structure Preferences where
  study_duration : Option Nat := none
  break_duration : Option Nat := none
  subjects : Option (List String) := none
  start_time : Option String := none
  end_time : Option String := none
deriving Repr, DecidableEq

/-- Default subject list used by preferences.get for a missing subjects
key. -/
def default_subjects : List String := ["Math", "Physics", "Chemistry", "English"]

/-- The scheduling loop of _generate_optimized_blocks (lines 116-150):
walk the ordered subjects from the current time, emitting a study block for
each subject and a break block after every subject except the last, and
accumulate total study and break minutes.  Returns the block list, total
study time and total break time. -/
def placeBlocks (break_duration study_duration : Nat) :
    Nat → List String → List Block × Nat × Nat
  | _, [] => ([], 0, 0)
  | t, subject :: rest =>
    let adjusted_duration := adjust_duration_for_time_and_subject t subject study_duration
    let e := t + adjusted_duration
    let sb : Block :=
      { subject := subject
        start_time := fmtHM t
        end_time := fmtHM e
        type := "study"
        duration := adjusted_duration
        difficulty := some (get_subject_difficulty subject)
        optimal_time := some (is_optimal_time_for_subject t subject) }
    match rest with
    | [] => ([sb], adjusted_duration, 0)
    | _ :: _ =>
      let adjusted_break := adjust_break_duration break_duration adjusted_duration
      let be := e + adjusted_break
      let bb : Block :=
        { subject := "Break"
          start_time := fmtHM e
          end_time := fmtHM be
          type := "break"
          duration := adjusted_break
          activity := some (suggest_break_activity adjusted_break) }
      let res := placeBlocks break_duration study_duration be rest
      (sb :: bb :: res.1, adjusted_duration + res.2.1, adjusted_break + res.2.2)

/-- Round to the nearest integer, ties to even.  Python round applies this
decimal rounding to its float argument; on every value this development
evaluates it at, the binary double and the exact rational fall on the same
side of the relevant tie, so the results agree. -/
def roundHalfEven (q : ℚ) : ℤ :=
  let f := ⌊q⌋
  let r := q - f
  if r < 1 / 2 then f
  else if 1 / 2 < r then f + 1
  else if f % 2 = 0 then f else f + 1

/-- Python round(x, 1) on the rational model. -/
def roundTenths (q : ℚ) : ℚ :=
  (roundHalfEven (q * 10) : ℚ) / 10

/-- CalendarOptimizer._calculate_wellness_score. -/
def calculate_wellness_score (blocks : List Block)
    (study_time break_time : Nat) : ℚ :=
  let balance_quot : ℚ := (break_time : ℚ) / (max study_time 1 : Nat)
  let optimal_quot : ℚ := 0.15
  let balance_score : ℚ := 10 * (1 - |balance_quot - optimal_quot| / optimal_quot)
  let study_blocks := blocks.filter (fun b => b.type == "study")
  let duration_total : ℚ :=
    (study_blocks.map (fun b =>
      if 60 ≤ b.duration ∧ b.duration ≤ 120 then (10 : ℚ)
      else if 45 ≤ b.duration ∧ b.duration ≤ 150 then 8
      else 5)).sum
  let duration_score : ℚ := duration_total / (max study_blocks.length 1 : Nat)
  let wellness_score := balance_score * 0.4 + duration_score * 0.6
  roundTenths (min 10 (max 0 wellness_score))

/-- CalendarOptimizer._calculate_efficiency_score. -/
def calculate_efficiency_score (blocks : List Block) : ℚ :=
  let study_blocks := blocks.filter (fun b => b.type == "study")
  if study_blocks.isEmpty then 0
  else
    let efficiency : ℚ :=
      (study_blocks.map (fun b =>
        if b.optimal_time.getD false then (10 : ℚ) else 6)).sum
    roundTenths (efficiency / study_blocks.length)

/-- Hour read back from a formatted HH:MM string, as done by
int(b.start_time.split(sep)[0]) in the source; the strings this is applied
to are always well formed, so the default on the toNat failure path is
never taken. -/
def hourOfHHMM (s : String) : Nat :=
  (((s.splitOn ":").headD "").toNat?).getD 0

/-- CalendarOptimizer._generate_optimization_notes. -/
def generate_optimization_notes (blocks : List Block) : List String :=
  let notes : List String := []
  let study_blocks := blocks.filter (fun b => b.type == "study")
  let morning_blocks := study_blocks.filter (fun b => hourOfHHMM b.start_time < 12)
  let notes :=
    if ¬ morning_blocks.isEmpty ∧
        morning_blocks.any (fun b => 8 ≤ b.difficulty.getD 0) then
      notes ++ ["✅ Difficult subjects scheduled during peak morning hours"]
    else notes
  let break_blocks := blocks.filter (fun b => b.type == "break")
  -- the source compares len(break_blocks) with len(study_blocks) * 0.8;
  -- on the integer block counts of this program the double comparison
  -- decides exactly like the exact comparison 5 * breaks >= 4 * studies
  let notes :=
    if 5 * break_blocks.length ≥ 4 * study_blocks.length then
      notes ++ ["✅ Adequate break frequency maintained"]
    else notes
  let break_activities := (break_blocks.map (fun b => b.activity.getD "")).dedup
  let notes :=
    if 1 < break_activities.length then
      notes ++ ["✅ Variety in break activities promotes better recovery"]
    else notes
  notes

/-- CalendarOptimizer._generate_optimized_blocks: resolve the preference
keys with their defaults, parse the start time (none models the strptime
ValueError escaping the method), run the placement loop and assemble the
returned schedule dict. -/
def generate_optimized_blocks (preferences : Preferences) : Option Schedule :=
  let study_duration := preferences.study_duration.getD 90
  let break_duration := preferences.break_duration.getD 15
  let subjects := preferences.subjects.getD default_subjects
  let start_time_str := preferences.start_time.getD "09:00"
  match parseHM start_time_str with
  | none => none
  | some start_minutes =>
    let difficulty_order := order_subjects_by_difficulty subjects
    let res := placeBlocks break_duration study_duration start_minutes difficulty_order
    let study_blocks := res.1
    let total_study_time := res.2.1
    let total_break_time := res.2.2
    let wellness_score := calculate_wellness_score study_blocks total_study_time total_break_time
    let efficiency_score := calculate_efficiency_score study_blocks
    some
      { study_blocks := study_blocks
        total_study_time := total_study_time
        total_break_time := total_break_time
        wellness_score := wellness_score
        efficiency_score := efficiency_score
        schedule_rating :=
          if wellness_score > 8.5 then "Excellent"
          else if wellness_score > 7 then "Good"
          else "Needs Improvement"
        optimization_notes := generate_optimization_notes study_blocks }

/-! Email stress analysis (gmail_analyzer.py).  The date-based filtering of
the source compares each email timestamp with a cutoff derived from the
wall clock; the analysis core below therefore takes the list of kept
emails as its input, together with the hour of each parseable timestamp. -/

/-- One kept email, with its text fields already resolved the way the
source resolves them (body is the first non-empty of body, snippet, text;
sender is the first non-empty of sender, from) and the clock hour of its
timestamp when one parses. -/
structure EmailRecord where
  subject : String := ""
  body : String := ""
  sender : String := ""
  hour : Option Nat := none
deriving Repr, DecidableEq

/-- The lowercased text blob scanned for keywords. -/
def email_text (e : EmailRecord) : String :=
  strToLower e.subject ++ " " ++ strToLower e.body ++ " " ++ strToLower e.sender

/-- True when the pattern begins the text. -/
def beginsWith : List Char → List Char → Bool
  | [], _ => true
  | _ :: _, [] => false
  | p :: ps, c :: cs => p == c && beginsWith ps cs

/-- Substring containment on character lists, the semantics of the Python
in operator on strings. -/
def hasSubChars (pat : List Char) : List Char → Bool
  | [] => beginsWith pat []
  | c :: cs => beginsWith pat (c :: cs) || hasSubChars pat cs

/-- Substring containment on strings. -/
def strContains (text pat : String) : Bool :=
  hasSubChars pat.toList text.toList

/-- The fixed stress keyword list, in source order. -/
def stress_keywords : List String :=
  ["urgent", "deadline", "asap", "emergency", "critical",
   "overdue", "late", "failed", "missing", "important",
   "immediately", "quickly", "rush", "priority"]

/-- The fixed work keyword list, in source order. -/
def work_keywords : List String :=
  ["assignment", "homework", "project", "exam", "test",
   "quiz", "submission", "grade", "course", "class",
   "study", "lecture", "professor", "teacher"]

/-- The keyword the scanning loop stops at: the first keyword of the list
that occurs in the text, since the loop breaks at its first hit. -/
def firstKeywordHit (keywords : List String) (text : String) : Option String :=
  keywords.find? (fun keyword => strContains text keyword)

/-- One iteration of the stress-keyword loop over an email: on a hit the
urgent count rises by one and the keyword is appended to the found list
unless already present, then the loop breaks. -/
def stressStep (acc : Nat × List String) (e : EmailRecord) : Nat × List String :=
  match firstKeywordHit stress_keywords (email_text e) with
  | some keyword =>
    (acc.1 + 1, if acc.2.contains keyword then acc.2 else acc.2 ++ [keyword])
  | none => acc

/-- The urgent count and stress_keywords_found list accumulated over the
kept emails. -/
def stressScan (emails : List EmailRecord) : Nat × List String :=
  emails.foldl stressStep (0, [])

/-- The work count: the work-keyword loop also breaks at its first hit, so
each kept email contributes at most one. -/
def workScan (emails : List EmailRecord) : Nat :=
  emails.countP (fun e => (firstKeywordHit work_keywords (email_text e)).isSome)

/-- The hourly_distribution dict: hour of day mapped to email count, in
first-occurrence order (Python dict insertion order). -/
def hourlyDistribution (hours : List Nat) : List (Nat × Nat) :=
  hours.foldl
    (fun acc h =>
      if acc.any (fun p => p.1 == h) then
        acc.map (fun p => if p.1 == h then (p.1, p.2 + 1) else p)
      else acc ++ [(h, 1)])
    []

/-- Rendering of one peak-hour bucket. -/
def fmtPeakHour (hour : Nat) : String :=
  pad2 hour ++ ":00-" ++ pad2 ((hour + 1) % 24) ++ ":00"

/-- Peak hours: buckets whose count is at least 70 percent of the largest
bucket count; empty when the distribution is empty. -/
def peakHours (dist : List (Nat × Nat)) : List String :=
  match dist with
  | [] => []
  | _ =>
    let max_count := (dist.map Prod.snd).foldl max 0
    -- the source compares count with max_count * 0.7; on integer counts
    -- the double comparison decides exactly like 10 * count >= 7 * max
    dist.filterMap (fun p =>
      if 10 * p.2 ≥ 7 * max_count then some (fmtPeakHour p.1) else none)

/-- The analysis dict returned by GmailAnalyzer._analyze_email_content
(minus the wall-clock analysis_date field). -/
structure EmailAnalysis where
  total_emails : Nat
  urgent_emails : Nat
  work_emails : Nat
  stress_keywords_found : List String
  peak_hours : List String
  workload_score : ℚ
  burnout_risk : String
  recommendations : List String
  days_analyzed : Nat
  hourly_distribution : List (Nat × Nat)
deriving Repr, DecidableEq

/-- The recommendation builder of _analyze_email_content, lines 220-232.
The late-night check is the literal source expression: a generator over
the bucket hours filtered by hour at least 22 or hour at most 6, consumed
by any, which tests the truthiness of the yielded hour itself, so the hour
0 bucket never makes the check true on its own. -/
def buildRecommendations (total_emails urgent_count work_count : Nat)
    (hours : List Nat) (peak_hours : List String) : List String :=
  let recommendations : List String := []
  -- the source thresholds urgent_count > total * 0.25 and
  -- work_count > total * 0.6 are compared below as the exact integer
  -- inequalities 4 * urgent > total and 5 * work > 3 * total, which on
  -- the integer counts of this program decide exactly like the doubles
  let recommendations :=
    if 0 < total_emails then
      let recommendations :=
        if 4 * urgent_count > total_emails then
          recommendations ++
            ["High urgency emails detected - consider prioritization techniques"]
        else recommendations
      let recommendations :=
        if 3 < peak_hours.length then
          recommendations ++
            ["Email scattered throughout day - try batching email checks"]
        else recommendations
      let recommendations :=
        if hours.any (fun hour =>
            (decide (22 ≤ hour) || decide (hour ≤ 6)) && decide (hour ≠ 0)) then
          recommendations ++
            ["Late night/early morning emails - set email boundaries"]
        else recommendations
      if 5 * work_count > 3 * total_emails then
        recommendations ++
          ["High volume of academic emails - consider organizing with filters"]
      else recommendations
    else recommendations
  if recommendations.isEmpty then
    ["Email patterns look healthy - keep up the good work!"]
  else recommendations

/-- GmailAnalyzer._analyze_email_content on the kept emails. -/
def analyze_email_content (emails : List EmailRecord) (days_back : Nat) :
    EmailAnalysis :=
  let total_emails := emails.length
  let stress := stressScan emails
  let urgent_count := stress.1
  let stress_keywords_found := stress.2
  let work_count := workScan emails
  let hours := emails.filterMap (fun e => e.hour)
  let dist := hourlyDistribution hours
  let peak_hours := peakHours dist
  let workload_score : ℚ :=
    if 0 < total_emails then
      min 10 (((urgent_count : ℚ) / total_emails * 5 +
               (work_count : ℚ) / total_emails * 3) * 10)
    else 0
  { total_emails := total_emails
    urgent_emails := urgent_count
    work_emails := work_count
    stress_keywords_found := stress_keywords_found
    peak_hours := peak_hours
    workload_score := roundTenths workload_score
    burnout_risk :=
      if workload_score ≥ 7 then "high"
      else if workload_score ≥ 4 then "moderate"
      else "low"
    recommendations :=
      buildRecommendations total_emails urgent_count work_count hours peak_hours
    days_analyzed := days_back
    hourly_distribution := dist }

/-! Free-time blocks (CalendarOptimizer._calculate_free_time_blocks).
Timestamps are modelled in seconds on the proleptic Gregorian calendar,
matching datetime subtraction. -/

/-- Gregorian leap-year test. -/
def isLeapYear (y : Nat) : Bool :=
  (y % 4 == 0 && y % 100 != 0) || y % 400 == 0

/-- Days in a month of the Gregorian calendar. -/
def daysInMonth (y m : Nat) : Nat :=
  if m = 2 then (if isLeapYear y then 29 else 28)
  else if m = 4 ∨ m = 6 ∨ m = 9 ∨ m = 11 then 30
  else 31

/-- Days in all years before year y (proleptic Gregorian, year 1 first). -/
def daysBeforeYear (y : Nat) : Nat :=
  365 * (y - 1) + (y - 1) / 4 - (y - 1) / 100 + (y - 1) / 400

/-- Days in the months of year y before month m. -/
def daysBeforeMonth (y m : Nat) : Nat :=
  (List.range (m - 1)).foldl (fun acc i => acc + daysInMonth y (i + 1)) 0

/-- Day number of a calendar date, day 0 being 0001-01-01; differences of
these numbers equal differences of Python date ordinals. -/
def toOrdinalDays (y m d : Nat) : Nat :=
  daysBeforeYear y + daysBeforeMonth y m + (d - 1)

/-- Digits of a character list read as a decimal number. -/
def digitsToNat (cs : List Char) : Nat :=
  cs.foldl (fun acc c => acc * 10 + (c.toNat - 48)) 0

/-- Range and digit checks shared by the ISO forms: all parts must be
digits, the date must exist on the calendar, and the clock fields must be
in range.  Returns the timestamp in seconds. -/
def mkIsoParts (ys os ds hs ns ss : List Char) : Option Nat :=
  if (ys ++ os ++ ds ++ hs ++ ns ++ ss).all Char.isDigit then
    let y := digitsToNat ys
    let mo := digitsToNat os
    let d := digitsToNat ds
    let h := digitsToNat hs
    let mi := digitsToNat ns
    let se := digitsToNat ss
    if 1 ≤ y ∧ 1 ≤ mo ∧ mo ≤ 12 ∧ 1 ≤ d ∧ d ≤ daysInMonth y mo ∧
        h ≤ 23 ∧ mi ≤ 59 ∧ se ≤ 59 then
      some (toOrdinalDays y mo d * 86400 + h * 3600 + mi * 60 + se)
    else none
  else none

/-- Model of datetime.fromisoformat covering the timestamp shapes this
repository produces: a four-digit year, two-digit month and day separated
by hyphens, any single separator character, then HH:MM or HH:MM:SS.
Fractional seconds and offsets are not produced by the repository and are
treated, like every other shape, as unparsable (none models the raised
ValueError). -/
def parseIsoChars (cs : List Char) : Option Nat :=
  if cs.length = 19 then
    match cs with
    | [y1, y2, y3, y4, '-', o1, o2, '-', d1, d2, _s, h1, h2, ':', n1, n2, ':', s1, s2] =>
      mkIsoParts [y1, y2, y3, y4] [o1, o2] [d1, d2] [h1, h2] [n1, n2] [s1, s2]
    | _ => none
  else if cs.length = 16 then
    match cs with
    | [y1, y2, y3, y4, '-', o1, o2, '-', d1, d2, _s, h1, h2, ':', n1, n2] =>
      mkIsoParts [y1, y2, y3, y4] [o1, o2] [d1, d2] [h1, h2] [n1, n2] ['0', '0']
    | _ => none
  else none

/-- Removal of every Z character, the semantics of replace with an empty
replacement applied before each fromisoformat call in the source. -/
def stripZ (s : String) : String :=
  ⟨s.toList.filter (fun c => c ≠ 'Z')⟩

/-- The timestamp parse applied to each event field: strip Z, then the
fromisoformat model. -/
def parseEventTime (s : String) : Option Nat :=
  parseIsoChars (stripZ s).toList

/-- An event dict as read by _calculate_free_time_blocks; the source dict
key end is spelled stop here because end is reserved. -/
structure CalEvent where
  start : String := ""
  stop : String := ""
deriving Repr, DecidableEq

/-- A free-time block dict as emitted by _calculate_free_time_blocks; the
key end is again spelled stop.  The source stores duration_hours rounded
to one decimal; the exact rational is kept here, and no property below
depends on this field. -/
structure FreeBlock where
  start : String
  stop : String
  duration_hours : ℚ
deriving Repr, DecidableEq

/-- Keep test for the stable sort of events by their start string, in
codepoint order, matching Python string comparison: an earlier event stays
in front of a later one exactly when its key is strictly smaller. -/
def charListLt : List Char → List Char → Bool
  | _, [] => false
  | [], _ :: _ => true
  | a :: as, b :: bs =>
    if a.toNat < b.toNat then true
    else if b.toNat < a.toNat then false
    else charListLt as bs

/-- Keep test instance for events. -/
def keepByStart (y x : CalEvent) : Bool :=
  charListLt y.start.toList x.start.toList

/-- Clock display of a timestamp in seconds. -/
def fmtHMOfSeconds (t : Nat) : String := fmtHM (t / 60)

/-- The walk of _calculate_free_time_blocks over the sorted events.  For
each event with a truthy start string: parse it (an exception skips the
rest of the body); when the cursor is strictly before the event start and
the gap, measured as the seconds attribute of the timedelta, is at least
half an hour, emit a free block; then, when the end string is truthy,
parse it (an exception again skips the rest, keeping the emitted block)
and advance the cursor to the larger of cursor and event end. -/
def freeTimeWalk (current_time : Nat) : List CalEvent → List FreeBlock
  | [] => []
  | e :: rest =>
    if e.start == "" then freeTimeWalk current_time rest
    else
      match parseEventTime e.start with
      | none => freeTimeWalk current_time rest
      | some event_start =>
        let emitted : List FreeBlock :=
          if current_time < event_start ∧
              1800 ≤ (event_start - current_time) % 86400 then
            [{ start := fmtHMOfSeconds current_time
               stop := fmtHMOfSeconds event_start
               duration_hours :=
                 (((event_start - current_time) % 86400 : Nat) : ℚ) / 3600 }]
          else []
        if e.stop == "" then emitted ++ freeTimeWalk current_time rest
        else
          match parseEventTime e.stop with
          | none => emitted ++ freeTimeWalk current_time rest
          | some event_end =>
            emitted ++ freeTimeWalk (max current_time event_end) rest

/-- The cursor start of the walk: fromisoformat applied to the fixed
2025-09-13T09:00:00 literal of the source. -/
def freeWalkStart : Nat :=
  toOrdinalDays 2025 9 13 * 86400 + 9 * 3600

/-- CalendarOptimizer._calculate_free_time_blocks: a fixed full-day block
when there are no events, otherwise the walk over the events stable-sorted
by start string. -/
def calculate_free_time_blocks (events : List CalEvent) : List FreeBlock :=
  if events.isEmpty then
    [{ start := "09:00", stop := "17:00", duration_hours := 8 }]
  else
    freeTimeWalk freeWalkStart (stableSortBy keepByStart events)

/-- Reading a free-block dict as an event dict, as happens when the output
of the free-time computation is fed back in: the start and end keys line
up, the rest is ignored. -/
def freeBlockAsEvent (b : FreeBlock) : CalEvent :=
  { start := b.start, stop := b.stop }

/-! Concrete inputs used by the theorems below. -/

/-- The worked example preferences of the specification. -/
def prefs_ex : Preferences :=
  { study_duration := some 90, break_duration := some 15,
    subjects := some ["Math", "English"], start_time := some "09:00",
    end_time := some "17:00" }

/-- The block sequence the scheduler produces for prefs_ex. -/
def blocks_ex : List Block :=
  [{ subject := "Math", start_time := "09:00", end_time := "10:30",
     type := "study", duration := 90, difficulty := some 9,
     optimal_time := some true },
   { subject := "Break", start_time := "10:30", end_time := "10:50",
     type := "break", duration := 20,
     activity := some "Short walk or hydration" },
   { subject := "English", start_time := "10:50", end_time := "12:20",
     type := "study", duration := 90, difficulty := some 5,
     optimal_time := some true }]

/-- Preferences whose subjects key is present but holds an empty list. -/
def prefs_empty_subjects : Preferences := { subjects := some [] }

/-- Preferences whose four subjects overrun the requested 10:00 end time. -/
def prefs_overrun : Preferences :=
  { subjects := some ["Math", "Physics", "Chemistry", "English"],
    start_time := some "09:00", end_time := some "10:00" }

/-- A busy calendar interval from 10:00 to 11:30 on the walk date. -/
def busy_ex : CalEvent :=
  { start := "2025-09-13T10:00:00", stop := "2025-09-13T11:30:00" }

/-! Helper lemmas about the stable insertion sort. -/

/-- Membership is preserved by one insertion. -/
theorem mem_insertKeep {α : Type} (keep : α → α → Bool) (x a : α) :
    ∀ l : List α, a ∈ insertKeep keep x l ↔ a = x ∨ a ∈ l := by
  intro l
  induction l with
  | nil => simp [insertKeep]
  | cons y ys ih =>
    rw [insertKeep]
    by_cases hk : keep y x
    · rw [if_pos hk]
      simp only [List.mem_cons, ih]
      tauto
    · rw [if_neg hk]
      simp only [List.mem_cons]

/-- Membership is preserved by the stable sort. -/
theorem mem_stableSortBy {α : Type} (keep : α → α → Bool) (a : α) :
    ∀ l : List α, a ∈ stableSortBy keep l ↔ a ∈ l := by
  intro l
  induction l with
  | nil => simp [stableSortBy]
  | cons y ys ih => simp [stableSortBy, mem_insertKeep, ih]

/-- Inserting into a list sorted by descending key keeps it sorted. -/
theorem pairwise_insertKeep (x : String × Nat) :
    ∀ l : List (String × Nat),
      l.Pairwise (fun a b => b.2 ≤ a.2) →
      (insertKeep keepDesc x l).Pairwise (fun a b => b.2 ≤ a.2) := by
  intro l
  induction l with
  | nil => simp [insertKeep]
  | cons y ys ih =>
    intro h
    rcases List.pairwise_cons.mp h with ⟨hy, hys⟩
    by_cases hk : keepDesc y x
    · rw [insertKeep, if_pos hk]
      refine List.pairwise_cons.mpr ⟨?_, ih hys⟩
      intro z hz
      rcases (mem_insertKeep keepDesc x z ys).mp hz with rfl | hz'
      · exact Nat.le_of_lt (by simpa [keepDesc] using hk)
      · exact hy z hz'
    · rw [insertKeep, if_neg hk]
      refine List.pairwise_cons.mpr ⟨?_, h⟩
      intro z hz
      have hyx : y.2 ≤ x.2 := Nat.le_of_not_lt (by simpa [keepDesc] using hk)
      rcases List.mem_cons.mp hz with rfl | hz'
      · exact hyx
      · exact Nat.le_trans (hy z hz') hyx

/-- The stable sort with the descending keep test sorts by descending key. -/
theorem pairwise_stableSortBy :
    ∀ l : List (String × Nat),
      (stableSortBy keepDesc l).Pairwise (fun a b => b.2 ≤ a.2) := by
  intro l
  induction l with
  | nil => simp [stableSortBy]
  | cons x xs ih => exact pairwise_insertKeep x _ ih

/-- Inserting an element either prepends it to, or leaves unchanged, the
sublist of any fixed key: elements of equal key stay behind the earlier
ones, which is stability of the insertion. -/
theorem filter_insertKeep (x : String × Nat) (d : Nat) :
    ∀ l : List (String × Nat),
      (insertKeep keepDesc x l).filter (fun p => p.2 == d) =
        if x.2 == d then x :: l.filter (fun p => p.2 == d)
        else l.filter (fun p => p.2 == d) := by
  intro l
  induction l with
  | nil =>
    by_cases hx : x.2 = d <;>
      simp [insertKeep, List.filter_cons, List.filter_nil, hx]
  | cons y ys ih =>
    by_cases hk : keepDesc y x
    · rw [insertKeep, if_pos hk]
      have hlt : x.2 < y.2 := by simpa [keepDesc] using hk
      by_cases hx : x.2 = d
      · have hy : ¬ y.2 = d := by omega
        simp [List.filter_cons, hx, hy, ih]
      · by_cases hy : y.2 = d <;> simp [List.filter_cons, hx, hy, ih]
    · rw [insertKeep, if_neg hk]
      by_cases hx : x.2 = d <;> simp [List.filter_cons, hx]

/-- Stability of the sort: the sublist of any fixed key is unchanged. -/
theorem filter_stableSortBy (d : Nat) :
    ∀ l : List (String × Nat),
      (stableSortBy keepDesc l).filter (fun p => p.2 == d) =
        l.filter (fun p => p.2 == d) := by
  intro l
  induction l with
  | nil => rfl
  | cons x xs ih =>
    rw [stableSortBy, filter_insertKeep, ih]
    by_cases hx : x.2 = d <;> simp [List.filter_cons, hx]

/-- Every pair that survives the sort carries the difficulty of its own
subject in its second component. -/
theorem snd_eq_difficulty_of_mem (subjects : List String)
    (q : String × Nat)
    (hq : q ∈ stableSortBy keepDesc
      (subjects.map (fun s => (s, get_subject_difficulty s)))) :
    q.2 = get_subject_difficulty q.1 := by
  rcases List.mem_map.mp
      ((mem_stableSortBy keepDesc q _).mp hq) with ⟨s, _, rfl⟩
  rfl

/-! Validation of the scaled duration computation against the rational
floor of the source expression. -/

/-- Scaled integer division computes the floor of the rational product. -/
theorem mul_div_thousand_eq_floor (b M : Nat) :
    b * M / 1000 = (⌊(b : ℚ) * ((M : ℚ) / 1000)⌋).toNat := by
  have h : (b : ℚ) * ((M : ℚ) / 1000) = ((b * M : ℕ) : ℚ) / ((1000 : ℕ) : ℚ) := by
    push_cast
    ring
  rw [h, Int.floor_toNat, Nat.floor_div_eq_div]

/-- The executable duration adjustment equals the truncation of the
rational product of the base duration with the band multiplier and the
afternoon difficulty penalty, exactly as the source writes it. -/
theorem adjust_duration_models_floor (t : Nat) (subject : String) (b : Nat) :
    adjust_duration_for_time_and_subject t subject b =
      (⌊(b : ℚ) *
        (if 8 ≤ get_subject_difficulty subject ∧ ¬ t / 60 % 24 < 12 then
            duration_multiplier (t / 60 % 24) * 0.9
          else duration_multiplier (t / 60 % 24))⌋).toNat := by
  simp only [adjust_duration_for_time_and_subject, duration_multiplier,
    duration_multiplier_thousandths]
  by_cases hP : 8 ≤ get_subject_difficulty subject ∧ ¬ t / 60 % 24 < 12 <;>
    by_cases h1 : (9 ≤ t / 60 % 24 ∧ t / 60 % 24 ≤ 11) ∨
      (15 ≤ t / 60 % 24 ∧ t / 60 % 24 ≤ 17) <;>
    by_cases h2 : (11 ≤ t / 60 % 24 ∧ t / 60 % 24 ≤ 15) ∨
      (17 ≤ t / 60 % 24 ∧ t / 60 % 24 ≤ 20) <;>
    simp only [hP, h1, h2, if_true, if_false, ite_true, ite_false,
      if_pos, if_neg, not_false_iff]
  all_goals
    first
    | (rw [show ((1.0 : ℚ) * 0.9) = ((900 : ℕ) : ℚ) / 1000 by norm_num,
          show (1000 * 9 / 10 : ℕ) = 900 from rfl]
       exact mul_div_thousand_eq_floor b 900)
    | (rw [show ((0.9 : ℚ) * 0.9) = ((810 : ℕ) : ℚ) / 1000 by norm_num,
          show (900 * 9 / 10 : ℕ) = 810 from rfl]
       exact mul_div_thousand_eq_floor b 810)
    | (rw [show ((0.8 : ℚ) * 0.9) = ((720 : ℕ) : ℚ) / 1000 by norm_num,
          show (800 * 9 / 10 : ℕ) = 720 from rfl]
       exact mul_div_thousand_eq_floor b 720)
    | (rw [show (1.0 : ℚ) = ((1000 : ℕ) : ℚ) / 1000 by norm_num]
       exact mul_div_thousand_eq_floor b 1000)
    | (rw [show (0.9 : ℚ) = ((900 : ℕ) : ℚ) / 1000 by norm_num]
       exact mul_div_thousand_eq_floor b 900)
    | (rw [show (0.8 : ℚ) = ((800 : ℕ) : ℚ) / 1000 by norm_num]
       exact mul_div_thousand_eq_floor b 800)

/-! Helper lemmas about the scheduling loop. -/

/-- The first emitted block starts at the current time. -/
theorem placeBlocks_head_start (bd sd : Nat) :
    ∀ (l : List String) (t : Nat) (b : Block),
      (placeBlocks bd sd t l).1.head? = some b → b.start_time = fmtHM t := by
  intro l
  cases l with
  | nil => intro t b h; simp [placeBlocks] at h
  | cons s rest =>
    intro t b h
    cases rest with
    | nil =>
      simp [placeBlocks] at h
      rw [← h]
    | cons s2 rest2 =>
      simp [placeBlocks] at h
      rw [← h]

/-- Every emitted block starts where the previous one ends. -/
theorem placeBlocks_chain (bd sd : Nat) :
    ∀ (l : List String) (t : Nat),
      (placeBlocks bd sd t l).1.Chain' (fun a b => a.end_time = b.start_time) := by
  intro l
  induction l with
  | nil => intro t; simp [placeBlocks]
  | cons s rest ih =>
    intro t
    cases rest with
    | nil => simp [placeBlocks]
    | cons s2 rest2 =>
      rw [placeBlocks]
      refine List.chain'_cons.mpr ⟨rfl, ?_⟩
      refine (List.chain'_cons'.mpr ⟨?_, ih _⟩)
      intro y hy
      exact (placeBlocks_head_start bd sd (s2 :: rest2) _ y hy).symm

/-- The accumulated totals equal the sums of the emitted block durations,
split by block type. -/
theorem placeBlocks_totals (bd sd : Nat) :
    ∀ (l : List String) (t : Nat),
      (placeBlocks bd sd t l).2.1 =
        (((placeBlocks bd sd t l).1.filter (fun b => b.type == "study")).map
          Block.duration).sum ∧
      (placeBlocks bd sd t l).2.2 =
        (((placeBlocks bd sd t l).1.filter (fun b => b.type == "break")).map
          Block.duration).sum := by
  intro l
  induction l with
  | nil => intro t; simp [placeBlocks]
  | cons s rest ih =>
    intro t
    cases rest with
    | nil => simp [placeBlocks]
    | cons s2 rest2 =>
      rw [placeBlocks]
      rcases ih (t + adjust_duration_for_time_and_subject t s sd +
        adjust_break_duration bd (adjust_duration_for_time_and_subject t s sd)) with
        ⟨ih1, ih2⟩
      simp [List.filter_cons, ih1, ih2]

/-- C1: every schedule the block scheduler produces is contiguous and
non-overlapping: each emitted block starts exactly where the previous one
ends, and the first block starts at the requested start time (stated for a
start-time preference in the canonical zero-padded HH:MM form of the
interface, the form the scheduler itself emits). -/
theorem schedule_blocks_contiguous (p : Preferences) (s : String) (m : Nat)
    (blocks : List Block)
    (hs : p.start_time.getD "09:00" = s)
    (hparse : parseHM s = some m)
    (hcanon : fmtHM m = s)
    (hgen : (generate_optimized_blocks p).map Schedule.study_blocks = some blocks) :
    blocks.Chain' (fun a b => a.end_time = b.start_time) ∧
    ∀ b, blocks.head? = some b → b.start_time = s := by
  simp only [generate_optimized_blocks, hs, hparse, Option.map_some',
    Option.some.injEq] at hgen
  constructor
  · rw [← hgen]
    exact placeBlocks_chain _ _ _ _
  · intro b hb
    rw [← hgen] at hb
    rw [placeBlocks_head_start _ _ _ _ _ hb, hcanon]

/-- C1 witness: the contiguity statement instantiated on the worked
example preferences. -/
theorem schedule_blocks_contiguous_witness :
    blocks_ex.Chain' (fun a b => a.end_time = b.start_time) ∧
    ∀ b, blocks_ex.head? = some b → b.start_time = "09:00" :=
  schedule_blocks_contiguous prefs_ex "09:00" 540 blocks_ex rfl (by decide)
    (by decide) (by decide)

/-- C2: the preferences of the worked example produce exactly a Math study
block 09:00-10:30 of duration 90, a break block 10:30-10:50 of duration 20
(the just-placed duration 90 raises the break from 15 to 20), and an
English study block 10:50-12:20 of duration 90; the band multiplier at
both placement hours 9 and 10 is 1.0. -/
theorem end_to_end_example :
    (generate_optimized_blocks prefs_ex).map Schedule.study_blocks =
      some blocks_ex ∧
    duration_multiplier 9 = 1.0 ∧ duration_multiplier 10 = 1.0 := by
  refine ⟨by decide, ?_, ?_⟩ <;> norm_num [duration_multiplier]

/-- C3: at the boundary clock hours 11, 15 and 17, which satisfy the
conditions of both bands, the first band wins by evaluation order and the
multiplier is 1.0, not 0.9. -/
theorem boundary_hours_first_band :
    duration_multiplier 11 = 1.0 ∧ duration_multiplier 15 = 1.0 ∧
    duration_multiplier 17 = 1.0 ∧ (1.0 : ℚ) ≠ 0.9 := by
  refine ⟨?_, ?_, ?_, ?_⟩ <;> norm_num [duration_multiplier]

/-- C4: subject ordering is a stable descending sort by difficulty: the
output difficulties are non-increasing, the subjects of any fixed
difficulty keep their input relative order, and the worked example orders
English, Math, History into Math, History, English. -/
theorem order_by_difficulty_stable_desc :
    (∀ subjects : List String,
      (order_subjects_by_difficulty subjects).Pairwise
        (fun a b => get_subject_difficulty b ≤ get_subject_difficulty a)) ∧
    (∀ (subjects : List String) (d : Nat),
      (order_subjects_by_difficulty subjects).filter
          (fun s => get_subject_difficulty s == d) =
        subjects.filter (fun s => get_subject_difficulty s == d)) ∧
    order_subjects_by_difficulty ["English", "Math", "History"] =
      ["Math", "History", "English"] := by
  refine ⟨?_, ?_, by decide⟩
  · intro subjects
    rw [order_subjects_by_difficulty, List.pairwise_map]
    refine List.Pairwise.imp_of_mem ?_ (pairwise_stableSortBy _)
    intro a b ha hb hab
    rw [← snd_eq_difficulty_of_mem subjects a ha,
      ← snd_eq_difficulty_of_mem subjects b hb]
    exact hab
  · intro subjects d
    have hmapfst :
        (subjects.map (fun s => (s, get_subject_difficulty s))).map Prod.fst
          = subjects := by
      induction subjects with
      | nil => rfl
      | cons a l ih => simpa [Function.comp] using ih
    rw [order_subjects_by_difficulty, List.filter_map]
    have h1 : List.filter ((fun s => get_subject_difficulty s == d) ∘ Prod.fst)
        (stableSortBy keepDesc (subjects.map (fun s => (s, get_subject_difficulty s)))) =
        List.filter (fun p => p.2 == d)
        (stableSortBy keepDesc (subjects.map (fun s => (s, get_subject_difficulty s)))) :=
      List.filter_congr (fun q hq => by
        simp only [Function.comp_apply]
        rw [snd_eq_difficulty_of_mem subjects q hq])
    have h2 : List.filter (fun p => p.2 == d)
        (subjects.map (fun s => (s, get_subject_difficulty s))) =
        List.filter ((fun s => get_subject_difficulty s == d) ∘ Prod.fst)
        (subjects.map (fun s => (s, get_subject_difficulty s))) :=
      List.filter_congr (fun q hq => by
        rcases List.mem_map.mp hq with ⟨s, _, rfl⟩
        rfl)
    rw [h1, filter_stableSortBy, h2, ← List.filter_map, hmapfst]

/-- C5 counterexample: a preference dict whose subjects key holds the empty
list does not fail; the scheduler returns a schedule, and its block list is
empty rather than the default subject list. -/
theorem empty_subjects_counterexample :
    (generate_optimized_blocks prefs_empty_subjects).isSome = true ∧
    (generate_optimized_blocks prefs_empty_subjects).map Schedule.study_blocks =
      some [] := by
  exact ⟨by decide, by decide⟩

/-- C5 amended: for every preference dict whose subjects key holds the
empty list and whose start time parses, the call succeeds and returns a
schedule with no blocks and zero study and break totals; the empty list is
not replaced by the default subjects, which apply only to a missing key. -/
theorem empty_subjects_returns_empty_schedule (p : Preferences) (m : Nat)
    (hsub : p.subjects = some [])
    (hparse : parseHM (p.start_time.getD "09:00") = some m) :
    (generate_optimized_blocks p).isSome = true ∧
    (generate_optimized_blocks p).map Schedule.study_blocks = some [] ∧
    (generate_optimized_blocks p).map Schedule.total_study_time = some 0 ∧
    (generate_optimized_blocks p).map Schedule.total_break_time = some 0 := by
  simp [generate_optimized_blocks, hsub, hparse, order_subjects_by_difficulty,
    stableSortBy, placeBlocks]

/-- C5 witness: the amended statement instantiated on the concrete
empty-subject preferences. -/
theorem empty_subjects_returns_empty_schedule_witness :
    (generate_optimized_blocks prefs_empty_subjects).isSome = true ∧
    (generate_optimized_blocks prefs_empty_subjects).map Schedule.study_blocks =
      some [] ∧
    (generate_optimized_blocks prefs_empty_subjects).map
      Schedule.total_study_time = some 0 ∧
    (generate_optimized_blocks prefs_empty_subjects).map
      Schedule.total_break_time = some 0 :=
  empty_subjects_returns_empty_schedule prefs_empty_subjects 540 rfl (by decide)

/-- C6: the scheduler never consults the end-time preference: two
preference dicts differing only in end_time produce identical schedules,
and on a concrete four-subject input the last emitted block ends at 15:37,
past the requested 10:00 end of day, with no truncation. -/
theorem end_time_never_consulted :
    (∀ (p : Preferences) (e : Option String),
      generate_optimized_blocks { p with end_time := e } =
        generate_optimized_blocks p) ∧
    ((generate_optimized_blocks prefs_overrun).map
        (fun s => (s.study_blocks.map Block.end_time).getLast?) =
      some (some "15:37") ∧
      parseHM "15:37" = some 937 ∧ parseHM "10:00" = some 600 ∧ 600 < 937) := by
  refine ⟨fun p e => rfl, by decide, by decide, by decide, by decide⟩

/-! Helper lemmas about the stress-keyword scan. -/

/-- The urgent count grows by exactly one for each email whose text holds
at least one stress keyword, starting from any accumulator. -/
theorem stressScan_fst_acc :
    ∀ (emails : List EmailRecord) (acc : Nat × List String),
      (emails.foldl stressStep acc).1 =
        acc.1 + emails.countP
          (fun e => stress_keywords.any (fun k => strContains (email_text e) k)) := by
  intro emails
  induction emails with
  | nil => intro acc; simp
  | cons e rest ih =>
    intro acc
    rw [List.foldl_cons, ih, List.countP_cons]
    cases h : firstKeywordHit stress_keywords (email_text e) with
    | none =>
      have hp : stress_keywords.any (fun k => strContains (email_text e) k) = false := by
        rw [List.any_eq_false]
        intro k hk
        have := List.find?_eq_none.mp h k hk
        simpa using this
      simp [stressStep, h, hp]
    | some kw =>
      have hp : stress_keywords.any (fun k => strContains (email_text e) k) = true := by
        rw [List.any_eq_true]
        exact ⟨kw, List.mem_of_find?_eq_some h, List.find?_some h⟩
      simp [stressStep, h, hp]
      omega

/-- The found-keyword list stays duplicate free through the scan. -/
theorem stressScan_found_nodup_acc :
    ∀ (emails : List EmailRecord) (acc : Nat × List String),
      acc.2.Nodup → (emails.foldl stressStep acc).2.Nodup := by
  intro emails
  induction emails with
  | nil => intro acc h; simpa using h
  | cons e rest ih =>
    intro acc h
    rw [List.foldl_cons]
    refine ih _ ?_
    cases hf : firstKeywordHit stress_keywords (email_text e) with
    | none => simpa [stressStep, hf] using h
    | some kw =>
      by_cases hc : kw ∈ acc.2
      · simpa [stressStep, hf, hc] using h
      · simp [stressStep, hf, hc, List.nodup_append, h]

/-- C7: each kept email whose text holds one or more stress keywords raises
urgent_count by exactly one (the scan stops at the first hit), the
stress_keywords_found list never holds duplicates, and an email whose text
holds both urgent and deadline counts once, contributing only urgent. -/
theorem stress_keyword_counted_once_per_email :
    (∀ emails : List EmailRecord,
      (stressScan emails).1 = emails.countP
        (fun e => stress_keywords.any (fun k => strContains (email_text e) k))) ∧
    (∀ emails : List EmailRecord, (stressScan emails).2.Nodup) ∧
    stressScan [{ subject := "URGENT: project deadline" }] = (1, ["urgent"]) := by
  refine ⟨fun emails => by simpa using stressScan_fst_acc emails (0, []),
    fun emails => stressScan_found_nodup_acc emails (0, []) (by simp),
    by decide⟩

/-- C8: the late-night check tests the truthiness of the bucket hour
itself, so a kept email at hour 0 alone does not trigger the late-night
recommendation (the healthy-patterns message is returned instead), while
an email at hour 23 does trigger it. -/
theorem late_night_recommendation_truthiness :
    (analyze_email_content [{ hour := some 0 }] 7).recommendations =
      ["Email patterns look healthy - keep up the good work!"] ∧
    "Late night/early morning emails - set email boundaries" ∉
      (analyze_email_content [{ hour := some 0 }] 7).recommendations ∧
    0 < (analyze_email_content [{ hour := some 0 }] 7).total_emails ∧
    (analyze_email_content [{ hour := some 0 }] 7).hourly_distribution =
      [(0, 1)] ∧
    (analyze_email_content [{ hour := some 23 }] 7).recommendations =
      ["Late night/early morning emails - set email boundaries"] := by
  exact ⟨by decide, by decide, by decide, by decide, by decide⟩

/-! Helper lemmas about the free-time computation. -/

/-- String append concatenates the character lists. -/
theorem string_append_toList (s t : String) :
    (s ++ t).toList = s.toList ++ t.toList := rfl

/-- Zero padding of a value below 100 has two characters. -/
theorem pad2_length : ∀ n < 100, (pad2 n).toList.length = 2 := by decide

/-- A formatted clock string has exactly five characters. -/
theorem fmtHM_toList_length (t : Nat) : (fmtHM t).toList.length = 5 := by
  have h1 : (pad2 (t / 60 % 24)).toList.length = 2 := pad2_length _ (by omega)
  have h2 : (pad2 (t % 60)).toList.length = 2 := pad2_length _ (by omega)
  rw [fmtHM, string_append_toList, string_append_toList, List.length_append,
    List.length_append, h1, h2]
  rfl

/-- Stripping Z filters the character list. -/
theorem stripZ_toList (s : String) :
    (stripZ s).toList = s.toList.filter (fun c => c ≠ 'Z') := rfl

/-- The timestamp parser rejects every string of at most five characters. -/
theorem parseIsoChars_short :
    ∀ cs : List Char, cs.length ≤ 5 → parseIsoChars cs = none := by
  intro cs h
  simp only [parseIsoChars]
  rw [if_neg (by omega), if_neg (by omega)]

/-- Every block the walk emits starts at a formatted clock string. -/
theorem freeTimeWalk_start_shape :
    ∀ (l : List CalEvent) (c : Nat) (fb : FreeBlock),
      fb ∈ freeTimeWalk c l → ∃ t, fb.start = fmtHMOfSeconds t := by
  intro l
  induction l with
  | nil => intro c fb h; simp [freeTimeWalk] at h
  | cons e rest ih =>
    intro c fb h
    rw [freeTimeWalk] at h
    by_cases h1 : e.start == ""
    · rw [if_pos h1] at h
      exact ih c fb h
    · rw [if_neg h1] at h
      cases hp : parseEventTime e.start with
      | none =>
        simp only [hp] at h
        exact ih c fb h
      | some es =>
        simp only [hp] at h
        have hemit : ∀ fb2, fb2 ∈ (if c < es ∧ 1800 ≤ (es - c) % 86400 then
            [{ start := fmtHMOfSeconds c, stop := fmtHMOfSeconds es,
               duration_hours := (((es - c) % 86400 : Nat) : ℚ) / 3600 }]
          else ([] : List FreeBlock)) → ∃ t, fb2.start = fmtHMOfSeconds t := by
          intro fb2 h2
          split at h2
          · rcases List.mem_singleton.mp h2 with rfl
            exact ⟨c, rfl⟩
          · simp at h2
        by_cases h2 : e.stop == ""
        · rw [if_pos h2] at h
          rcases List.mem_append.mp h with hl | hr
          · exact hemit fb hl
          · exact ih c fb hr
        · rw [if_neg h2] at h
          cases hq : parseEventTime e.stop with
          | none =>
            simp only [hq] at h
            rcases List.mem_append.mp h with hl | hr
            · exact hemit fb hl
            · exact ih c fb hr
          | some ee =>
            simp only [hq] at h
            rcases List.mem_append.mp h with hl | hr
            · exact hemit fb hl
            · exact ih (max c ee) fb hr

/-- When no event start parses, the walk emits nothing. -/
theorem freeTimeWalk_unparsable :
    ∀ (l : List CalEvent) (c : Nat),
      (∀ e ∈ l, parseEventTime e.start = none) → freeTimeWalk c l = [] := by
  intro l
  induction l with
  | nil => intro c _; rfl
  | cons e rest ih =>
    intro c hall
    rw [freeTimeWalk]
    by_cases h1 : e.start == ""
    · rw [if_pos h1]
      exact ih c (fun x hx => hall x (List.mem_cons_of_mem e hx))
    · rw [if_neg h1, hall e (List.mem_cons_self e rest)]
      exact ih c (fun x hx => hall x (List.mem_cons_of_mem e hx))

/-- Every block of the free-time output carries a five-character start. -/
theorem free_time_block_start_length (events : List CalEvent) (fb : FreeBlock)
    (h : fb ∈ calculate_free_time_blocks events) : fb.start.toList.length = 5 := by
  rw [calculate_free_time_blocks] at h
  by_cases he : events.isEmpty
  · rw [if_pos he] at h
    rcases List.mem_singleton.mp h with rfl
    decide
  · rw [if_neg he] at h
    rcases freeTimeWalk_start_shape _ _ _ h with ⟨t, ht⟩
    rw [ht]
    exact fmtHM_toList_length _

/-- C9 amended: feeding the free-time output back as busy-interval input
never reproduces the original boundaries: every emitted block carries
HH:MM clock strings that the timestamp parser rejects, so the round trip
returns the empty list whenever the first output is non-empty, and the
fixed full-day default block when the first output is empty. -/
theorem free_time_round_trip (events : List CalEvent) :
    calculate_free_time_blocks
        ((calculate_free_time_blocks events).map freeBlockAsEvent) =
      if (calculate_free_time_blocks events).isEmpty then
        [{ start := "09:00", stop := "17:00", duration_hours := 8 }]
      else [] := by
  by_cases hempty : (calculate_free_time_blocks events).isEmpty
  · rw [if_pos hempty, List.isEmpty_iff.mp hempty]
    rfl
  · rw [if_neg hempty]
    have hmapne : ((calculate_free_time_blocks events).map freeBlockAsEvent).isEmpty = false := by
      rcases hfl : calculate_free_time_blocks events with _ | ⟨b, bs⟩
      · rw [hfl] at hempty
        simp at hempty
      · rfl
    rw [calculate_free_time_blocks, hmapne]
    simp only [Bool.false_eq_true, if_false]
    apply freeTimeWalk_unparsable
    intro e he
    rcases List.mem_map.mp ((mem_stableSortBy _ _ _).mp he) with ⟨fb, hfb, rfl⟩
    have hlen : fb.start.toList.length = 5 := free_time_block_start_length events fb hfb
    show parseIsoChars (stripZ fb.start).toList = none
    apply parseIsoChars_short
    calc (stripZ fb.start).toList.length
        ≤ fb.start.toList.length := by
          rw [stripZ_toList]
          exact List.length_filter_le _ _
      _ = 5 := hlen

/-- C9 counterexample: a busy interval 10:00-11:30 yields the free block
09:00-10:00, and feeding that output back yields the empty list, which
reproduces neither the 10:00 nor the 11:30 boundary. -/
theorem free_time_round_trip_counterexample :
    (calculate_free_time_blocks [busy_ex]).map (fun b => (b.start, b.stop)) =
      [("09:00", "10:00")] ∧
    calculate_free_time_blocks
        ((calculate_free_time_blocks [busy_ex]).map freeBlockAsEvent) = [] := by
  exact ⟨by decide, by decide⟩

/-- C10: the returned totals always equal the sums of the duration fields
of the emitted blocks, split by study and break type. -/
theorem schedule_totals_consistent (p : Preferences) (blocks : List Block)
    (total_study total_break : Nat)
    (hgen : (generate_optimized_blocks p).map
        (fun s => (s.study_blocks, s.total_study_time, s.total_break_time)) =
      some (blocks, total_study, total_break)) :
    total_study = ((blocks.filter (fun b => b.type == "study")).map
      Block.duration).sum ∧
    total_break = ((blocks.filter (fun b => b.type == "break")).map
      Block.duration).sum := by
  cases hp : parseHM (p.start_time.getD "09:00") with
  | none => simp [generate_optimized_blocks, hp] at hgen
  | some m =>
    simp only [generate_optimized_blocks, hp, Option.map_some',
      Option.some.injEq, Prod.mk.injEq] at hgen
    rcases hgen with ⟨hb, hs, hk⟩
    subst hb hs hk
    exact placeBlocks_totals _ _ _ _

/-- C10 witness: the totals statement instantiated on the worked example
preferences. -/
theorem schedule_totals_consistent_witness :
    (180 : Nat) = ((blocks_ex.filter (fun b => b.type == "study")).map
      Block.duration).sum ∧
    (20 : Nat) = ((blocks_ex.filter (fun b => b.type == "break")).map
      Block.duration).sum :=
  schedule_totals_consistent prefs_ex blocks_ex 180 20 (by decide)

end StudyBalance
